import Mathlib

/-!
# Verification of the consys `ConstraintGenerator`

A shallow embedding of `src/ConstraintGenerator.ts` (the constraint DSL
compiler of the consys repository) together with proofs about its
behaviour.  Strings are embedded as `List Char`; the JavaScript string
primitives used by the source (`charAt`, `substring`, `indexOf`,
`split`, `replace`, …) are given faithful counterparts below.  The
host-language evaluation of the generated code (the `FunctionGenerator`
collaborator, which is not part of the embedded source file) is
modelled from the specification where theorems need it.
-/

namespace Consys

/-! ## JavaScript string primitives -/

/-- JavaScript `\s` (whitespace) character class, restricted to the ASCII
whitespace characters. -/
def isSpaceChar (c : Char) : Bool :=
  c = ' ' || c = '\t' || c = '\n' || c = '\r' || c = '\x0b' || c = '\x0c'

/-- JavaScript `\w` (word) character class: letters, digits and underscore. -/
def isWordChar (c : Char) : Bool :=
  ('a' ≤ c && c ≤ 'z') || ('A' ≤ c && c ≤ 'Z') || ('0' ≤ c && c ≤ '9') || c = '_'

/-- JavaScript decimal digit class `[0-9]`. -/
def isDigitChar (c : Char) : Bool :=
  '0' ≤ c && c ≤ '9'

/-- JavaScript `s.charAt(i)` / `s[i]`: `none` models the out-of-range result
(`""` respectively `undefined`). -/
def jsCharAt (s : List Char) (i : Nat) : Option Char :=
  s[i]?

/-- JavaScript `s.substring(a, b)`: both indices are clamped to the string
length and swapped when `a > b`. -/
def jsSubstring (s : List Char) (a b : Nat) : List Char :=
  let a' := min a s.length
  let b' := min b s.length
  (s.take (max a' b')).drop (min a' b')

/-- JavaScript `s.indexOf(c)` for a single character: first index or `-1`. -/
def jsIndexOf (s : List Char) (c : Char) : Int :=
  match s.findIdx? (· = c) with
  | some i => (i : Int)
  | none => -1

/-- JavaScript `s.split(sep)` for a one-character separator. -/
def jsSplit (s : List Char) (sep : Char) : List (List Char) :=
  go s []
where
  /-- Accumulates the current segment (reversed) while scanning. -/
  go : List Char → List Char → List (List Char)
    | [], acc => [acc.reverse]
    | c :: rest, acc =>
      if c = sep then acc.reverse :: go rest [] else go rest (c :: acc)

/-- JavaScript `s.replace(pat, repl)` with a plain-string pattern: replaces
only the first occurrence; returns `s` unchanged when `pat` does not occur. -/
def jsReplaceFirst (s pat repl : List Char) : List Char :=
  if pat.isPrefixOf s then repl ++ s.drop pat.length
  else
    match s with
    | [] => []
    | c :: rest => c :: jsReplaceFirst rest pat repl

/-- JavaScript `s.replace(/\s/g, '')`: remove all whitespace. -/
def removeWhitespace (s : List Char) : List Char :=
  s.filter (fun c => !isSpaceChar c)

/-- JavaScript `s.trim()`: strip leading and trailing whitespace. -/
def jsTrim (s : List Char) : List Char :=
  ((s.dropWhile isSpaceChar).reverse.dropWhile isSpaceChar).reverse

/-- JavaScript `s.includes(c)` for a single character. -/
def jsIncludes (s : List Char) (c : Char) : Bool :=
  s.contains c

/-! ## JavaScript values and dotted-path lookup

The model and state contexts are caller-owned nested objects.  We embed
the JavaScript values the DSL manipulates: numbers (integers — every
numeric value the verified examples exercise is integral), strings,
booleans, `undefined`, `NaN` and string-keyed objects. -/

/-- A JavaScript value as visible to the constraint DSL. -/
inductive Value where
  | num (q : ℤ)
  | str (s : List Char)
  | boolV (b : Bool)
  | undefV
  | nan
  | obj (fields : List (List Char × Value))

/-- Association-list lookup for object fields. -/
def lookupField : List (List Char × Value) → List Char → Option Value
  | [], _ => none
  | (k, v) :: rest, key => if k = key then some v else lookupField rest key

/-- JavaScript property access `value[key]`: accessing a property of
`undefined` throws (`Except.error`), an object yields the field value or
`undefined`, and any other value yields `undefined` (built-in properties
of primitives, such as a string's `length` or numeric indices, lie outside
the modelled fragment — the DSL's dotted paths address caller data). -/
def jsIndex : Value → List Char → Except Unit Value
  | .undefV, _ => .error ()
  | .obj fields, key => .ok ((lookupField fields key).getD .undefV)
  | _, _ => .ok .undefV

/-- `ConstraintGenerator.getObjectValue`: walk the dotted key chain through
the object; the surrounding `try`/`catch` converts a thrown access into the
string `'UNDEFINED_VALUE'`. -/
def getObjectValue (object : Value) (keyChain : List Char) : Value :=
  if keyChain = [] then object
  else
    match walk object (jsSplit keyChain '.') with
    | .ok v => v
    | .error _ => .str "UNDEFINED_VALUE".data
where
  /-- The `for (let key of keys) value = value[key]` loop. -/
  walk : Value → List (List Char) → Except Unit Value
    | v, [] => .ok v
    | v, k :: ks => do walk (← jsIndex v k) ks

/-! ## Function registry -/

/-- The registry of custom function names (`customFunctions`). -/
abbrev Registry := List (List Char)

/-- `ConstraintGenerator.registerFunction`: adding an already-present name
throws; otherwise the name is appended. -/
def registerFunction (reg : Registry) (name : List Char) : Except (List Char) Registry :=
  if reg.contains name then
    .error ("Function with name ".data ++ name ++ " is already registered".data)
  else
    .ok (reg ++ [name])

/-! ## Within-string check and assertion splitting -/

/-- `ConstraintGenerator.isCharWithinString`: a boundary index or a quote
itself is never "within" a string; otherwise count the quote characters
strictly after the index, odd meaning inside. -/
def isCharWithinString (srcString : List Char) (charIndex : Nat) : Bool :=
  if charIndex = 0 || charIndex = srcString.length - 1 ||
     jsCharAt srcString charIndex = some '\'' then
    false
  else
    (((srcString.drop (charIndex + 1)).filter (· = '\'')).length) % 2 = 1

/-- The scanning loop of `getSplitTokens`: first index `i ≥ start` holding an
unquoted `:`, or `-1`.  The loop runs at most `srcString.length - i` times;
`fuel` is initialized to `srcString.length`, which covers that bound, and
an out-of-range index ends the scan exactly as in the source. -/
def splitIndexFromAux (srcString : List Char) : Nat → Nat → Int
  | 0, _ => -1
  | fuel + 1, i =>
    match jsCharAt srcString i with
    | none => -1
    | some c =>
      if c = ':' && !isCharWithinString srcString i then (i : Int)
      else splitIndexFromAux srcString fuel (i + 1)

/-- The located activation/condition separator index of `getSplitTokens`. -/
def splitIndexFrom (srcString : List Char) (i : Nat) : Int :=
  splitIndexFromAux srcString srcString.length i

/-- `ConstraintGenerator.getSplitTokens`: split on the located separator or
throw `Invalid syntax for token`. -/
def getSplitTokens (srcString : List Char) : Except (List Char) (List Char × List Char) :=
  match splitIndexFrom srcString 0 with
  | .negSucc _ => .error ("Invalid syntax for token: ".data ++ srcString)
  | .ofNat i =>
    .ok (jsSubstring srcString 0 i, jsSubstring srcString (i + 1) srcString.length)

/-! ## Parenthesis helpers -/

/-- The scanning loop of `getSubstringWithinParentheses`.  Returns the value
`bracketEnd` has after the loop: the index of the closing bracket at depth 0,
or `dflt` (the initial `bracketEnd`) when none is found.  The source's
`numBracketsOpened < 0` throw-branch is unreachable (the counter is only
decremented when positive), so the counter is a `Nat` here.  The loop runs
at most `s.length - i` times; callers pass `s.length` as `fuel`, which
covers that bound, and an out-of-range index ends the scan as in the
source. -/
def gswpLoop (s : List Char) : Nat → Nat → Nat → Nat → Nat
  | 0, _, _, dflt => dflt
  | fuel + 1, i, opened, dflt =>
    match jsCharAt s i with
    | none => dflt
    | some c =>
      if c = '(' then gswpLoop s fuel (i + 1) (opened + 1) dflt
      else if c = ')' then
        if 0 < opened then gswpLoop s fuel (i + 1) (opened - 1) dflt
        else i
      else gswpLoop s fuel (i + 1) opened dflt

/-- `ConstraintGenerator.getSubstringWithinParentheses`: the substring between
the first `(` and its matching `)` (depth-counted). -/
def getSubstringWithinParentheses (srcString : List Char) : List Char :=
  let bracketStart := (jsIndexOf srcString '(' + 1).toNat
  let bracketEnd := gswpLoop srcString srcString.length bracketStart 0 bracketStart
  jsSubstring srcString bracketStart bracketEnd

/-- For a given opening bracket, the loop of `getClosingBracketIndex`.  The
bracket counter starts at 1 and is checked for 0 after every character;
`fuel` covers the loop bound as in `gswpLoop`. -/
def gcbLoop (s : List Char) : Nat → Nat → Int → Int
  | 0, _, _ => -1
  | fuel + 1, j, numBrackets =>
    match jsCharAt s j with
    | none => -1
    | some c =>
      let nb := if c = '(' then numBrackets + 1
                else if c = ')' then numBrackets - 1
                else numBrackets
      if nb = 0 then (j : Int) else gcbLoop s fuel (j + 1) nb

/-- `ConstraintGenerator.getClosingBracketIndex`: index of the bracket
matching the one at `openingBracketIndex`, or `-1`. -/
def getClosingBracketIndex (openingBracketIndex : Nat) (srcString : List Char) : Int :=
  gcbLoop srcString srcString.length (openingBracketIndex + 1) 1

/-- `ConstraintGenerator.findAllIndicesOf`: all indices of `char`. -/
def findAllIndicesOf (char : Char) (srcString : List Char) : List Nat :=
  (List.range srcString.length).filter (fun i => jsCharAt srcString i = some char)

/-- The bracket-list loop of `isCharWithinFunction`. -/
def icwfLoop (srcString : List Char) (charIndex : Nat) :
    List Nat → Except (List Char) Bool
  | [] => .ok false
  | idx :: rest =>
    -- brackets at index 0 cannot belong to a function name
    if idx = 0 then icwfLoop srcString charIndex rest
    else
      let leftChar := (jsCharAt srcString (idx - 1)).getD '\x00'
      if isWordChar leftChar then
        match getClosingBracketIndex idx srcString with
        | .negSucc _ => .error ("Syntax error in function: ".data ++ srcString)
        | .ofNat closing =>
          if charIndex > idx && charIndex < closing then .ok true
          else icwfLoop srcString charIndex rest
      else icwfLoop srcString charIndex rest

/-- `ConstraintGenerator.isCharWithinFunction`: whether the character at
`charIndex` lies inside some function call's argument parentheses; throws
when such a call has no closing bracket. -/
def isCharWithinFunction (srcString : List Char) (charIndex : Nat) :
    Except (List Char) Bool :=
  let char := jsCharAt srcString charIndex
  if charIndex = 0 || charIndex = srcString.length - 1 ||
     char = some '(' || char = some ')' then
    .ok false
  else
    icwfLoop srcString charIndex (findAllIndicesOf '(' srcString)

/-! ## Token-class predicates -/

/-- `ConstraintGenerator.isNumberString`.  The source tests the unanchored
regex `[+-]?([0-9]*[.])?[0-9]+`; since `[0-9]+` alone already matches, a
match exists exactly when the string contains a decimal digit. -/
def isNumberString (s : List Char) : Bool :=
  s.any isDigitChar

/-- `ConstraintGenerator.isString`: starts and ends with `'` and contains no
backtick. -/
def isString (s : List Char) : Bool :=
  ['\''].isPrefixOf s && ['\''].isSuffixOf s && !s.contains '`'

/-- `ConstraintGenerator.isModelVariable`: starts with `$`. -/
def isModelVariable (s : List Char) : Bool :=
  ['$'].isPrefixOf s

/-- `ConstraintGenerator.isStateVariable`: starts with `#`. -/
def isStateVariable (s : List Char) : Bool :=
  ['#'].isPrefixOf s

/-- `ConstraintGenerator.isFunctionToken`: some registered name is a prefix
of the token. -/
def isFunctionToken (reg : Registry) (token : List Char) : Bool :=
  reg.any (fun name => name.isPrefixOf token)

/-- `ConstraintGenerator.isStatementToken`: a function token containing no
brackets. -/
def isStatementToken (reg : Registry) (token : List Char) : Bool :=
  isFunctionToken reg token && !token.contains '(' && !token.contains ')'

/-! ## End-index helpers of the expression tokenizer -/

/-- Generic scanning loop shared by the data-access / number / statement
end-index helpers: starting at `i`, consume characters satisfying `pred`;
the final character of the string is always consumed (the source checks
`i === trimmed.length - 1` first); when the loop runs off the end without
deciding, the stale default `dflt` (the previous `endIndex`) is returned. -/
def scanEnd (pred : Char → Bool) (trimmed : List Char) : Nat → Nat → Nat → Nat
  | 0, _, dflt => dflt
  | fuel + 1, i, dflt =>
    match jsCharAt trimmed i with
    | none => dflt
    | some c =>
      if i = trimmed.length - 1 then i + 1
      else if !pred c then i
      else scanEnd pred trimmed fuel (i + 1) dflt

/-- `ConstraintGenerator.getDataAccessEndIndex`: consume `\w` and `.` after
the prefix character. -/
def getDataAccessEndIndex (trimmed : List Char) (startIndex endIndex : Nat) : Nat :=
  scanEnd (fun c => isWordChar c || c = '.') trimmed trimmed.length (startIndex + 1) endIndex

/-- The scanning loop of `getStringEndIndex`. -/
def gseLoop (trimmed : List Char) : Nat → Nat → Nat → Nat
  | 0, _, dflt => dflt
  | fuel + 1, i, dflt =>
    match jsCharAt trimmed i with
    | none => dflt
    | some c =>
      if c = '\'' then i + 1
      else gseLoop trimmed fuel (i + 1) dflt

/-- `ConstraintGenerator.getStringEndIndex`: consume through the closing
quote. -/
def getStringEndIndex (trimmed : List Char) (startIndex endIndex : Nat) : Nat :=
  gseLoop trimmed trimmed.length (startIndex + 1) endIndex

/-- `ConstraintGenerator.getNumberEndIndex`: consume digits and dots,
starting at the number's first character. -/
def getNumberEndIndex (trimmed : List Char) (startIndex endIndex : Nat) : Nat :=
  scanEnd (fun c => isDigitChar c || c = '.') trimmed trimmed.length startIndex endIndex

/-- `ConstraintGenerator.getStatementEndIndex`: consume `\w` characters. -/
def getStatementEndIndex (trimmed : List Char) (startIndex endIndex : Nat) : Nat :=
  scanEnd isWordChar trimmed trimmed.length (startIndex + 1) endIndex

/-- The scanning loop of `getFunctionEndIndex`: returns the `foundFirst` flag
and the end index.  The bracket counter is an `Int` (a stray `)` drives it
negative in the source as well). -/
def gfeLoop (trimmed : List Char) : Nat → Nat → Int → Bool → Nat → Bool × Nat
  | 0, _, _, foundFirst, dflt => (foundFirst, dflt)
  | fuel + 1, i, numBrackets, foundFirst, dflt =>
    match jsCharAt trimmed i with
    | none => (foundFirst, dflt)
    | some c =>
      let nb := if c = '(' then numBrackets + 1
                else if c = ')' then numBrackets - 1
                else numBrackets
      let ff := foundFirst || c = '('
      if ff && nb = 0 then (ff, i + 1)
      else if nb = 0 && !isWordChar c then (true, i)
      else gfeLoop trimmed fuel (i + 1) nb ff dflt

/-- `ConstraintGenerator.getFunctionEndIndex`: consume through the bracket
closing the call; without any bracket, fall back to the statement rule. -/
def getFunctionEndIndex (trimmed : List Char) (startIndex endIndex : Nat) : Nat :=
  let r := gfeLoop trimmed trimmed.length (startIndex + 1) 0 false endIndex
  if !r.1 then getStatementEndIndex trimmed startIndex endIndex else r.2

/-- `Symbols.OPERATOR_START`: the first character of each of the fifteen
operator/bracket symbols, in declaration order. -/
def OPERATOR_START : List Char :=
  ['<', '<', '=', '!', '>', '>', '+', '-', '*', '/', '%', '(', ')', '&', '|']

/-- `ConstraintGenerator.getOperatorEndIndex`: `<`, `>`, `!`, `=` are two
characters long exactly when the next character is `=`; `&` and `|` always
consume two characters; single-character operators and brackets one; any
other start character leaves the stale default unchanged. -/
def getOperatorEndIndex (trimmed : List Char) (startChar : Char)
    (startIndex endIndex : Nat) : Nat :=
  if startChar = '<' || startChar = '>' || startChar = '!' || startChar = '=' then
    if jsCharAt trimmed (startIndex + 1) = some '=' then startIndex + 2
    else startIndex + 1
  else if startChar = '&' || startChar = '|' then startIndex + 2
  else if startChar = '(' || startChar = ')' || startChar = '+' ||
          startChar = '-' || startChar = '*' || startChar = '/' ||
          startChar = '%' then startIndex + 1
  else endIndex

/-! ## The expression tokenizer loop -/

/-- One classification step of the `generateConditionalString` loop: compute
the end index of the token starting at `startIndex`.  When `startIndex` is
out of range, `trimmed[startIndex]` is `undefined` in the source; the `===`
comparisons against `$`, `#`, `'` fail and `undefined.match(/[0-9]/g)` then
throws a `TypeError`. -/
def classifyEnd (reg : Registry) (data trimmed : List Char)
    (startIndex endIndex : Nat) : Except (List Char) Nat :=
  match jsCharAt trimmed startIndex with
  | none => .error "TypeError: undefined has no method match".data
  | some startChar =>
    if startChar = '$' || startChar = '#' then
      .ok (getDataAccessEndIndex trimmed startIndex endIndex)
    else if startChar = '\'' then
      .ok (getStringEndIndex trimmed startIndex endIndex)
    else if isDigitChar startChar then
      .ok (getNumberEndIndex trimmed startIndex endIndex)
    else if isFunctionToken reg (trimmed.drop startIndex) then
      .ok (getFunctionEndIndex trimmed startIndex endIndex)
    else if OPERATOR_START.contains startChar then
      .ok (getOperatorEndIndex trimmed startChar startIndex endIndex)
    else
      .error ("Unable to parse statement: ".data ++ data ++ ", char: ".data ++
        [startChar] ++ ", index: ".data ++ (toString startIndex).data)

/-- The error message thrown when the iteration cap of the tokenizer loop is
exceeded. -/
def maxIterationsMsg (data : List Char) : List Char :=
  "Maximum number of parsing iterations reached, there is a syntax error here: ".data
    ++ data

/-- The `while (!done)` loop of `generateConditionalString`.  Each pass
classifies the token at `startIndex`, pushes the substring, advances, and —
mirroring `if (iterations++ > 1000) throw` — aborts once the pre-increment
counter exceeds 1000, even on a pass that consumed the final token.
`remaining` counts the loop passes still allowed: it equals
`1001 - iterations` and starts at 1001, so the abort fires exactly when the
source's counter exceeds 1000. -/
def gcsLoop (reg : Registry) (data trimmed : List Char) :
    Nat → Nat → List (List Char) → Nat → Except (List Char) (List (List Char))
  | startIndex, endIndex, tokens, remaining =>
    match classifyEnd reg data trimmed startIndex endIndex with
    | .error e => .error e
    | .ok endIndex' =>
      let tokens' := tokens ++ [jsSubstring trimmed startIndex endIndex']
      match remaining with
      | 0 => .error (maxIterationsMsg data)
      | r + 1 =>
        if endIndex' ≥ trimmed.length then .ok tokens'
        else gcsLoop reg data trimmed endIndex' endIndex' tokens' r

/-! ## Function-argument splitting -/

/-- The scanning loop of `getFunctionArgs`: split on top-level commas; a
closing bracket at depth 0 that ends the string pushes the bracketed
argument.  The bracket counter is an `Int` as a stray `)` drives it negative
in the source. -/
def gfaLoop (trimmed : List Char) : Nat → Nat → Nat → Int → List (List Char) →
    List (List Char)
  | 0, _, _, _, res => res
  | fuel + 1, i, startIndex, numBrackets, res =>
    match jsCharAt trimmed i with
    | none => res
    | some c =>
      if c = '(' then gfaLoop trimmed fuel (i + 1) startIndex (numBrackets + 1) res
      else if c = ')' then
        let nb := numBrackets - 1
        let res' := if nb = 0 && i = trimmed.length - 1 then
            res ++ [jsSubstring trimmed startIndex (i + 1)]
          else res
        gfaLoop trimmed fuel (i + 1) startIndex nb res'
      else if (c = ',' || i = trimmed.length - 1) && numBrackets = 0 then
        let endIndex := if i = trimmed.length - 1 then i + 1 else i
        gfaLoop trimmed fuel (i + 1) (i + 1) numBrackets
          (res ++ [jsSubstring trimmed startIndex endIndex])
      else gfaLoop trimmed fuel (i + 1) startIndex numBrackets res

/-- `ConstraintGenerator.getFunctionArgs`: strip whitespace, then split the
argument string at top-level commas. -/
def getFunctionArgs (argString : List Char) : List (List Char) :=
  gfaLoop (removeWhitespace argString) (removeWhitespace argString).length 0 0 0 []

/-! ## Symbol translation -/

/-- The `switch` at the end of `getSymbolForToken`: the fifteen fixed
operator/bracket spellings map to themselves, every other token to the
empty string. -/
def operatorSwitch (token : List Char) : List Char :=
  if token = "<".data then "<".data
  else if token = "<=".data then "<=".data
  else if token = "==".data then "==".data
  else if token = "!=".data then "!=".data
  else if token = ">=".data then ">=".data
  else if token = ">".data then ">".data
  else if token = "+".data then "+".data
  else if token = "-".data then "-".data
  else if token = "*".data then "*".data
  else if token = "/".data then "/".data
  else if token = "%".data then "%".data
  else if token = "(".data then "(".data
  else if token = ")".data then ")".data
  else if token = "&&".data then "&&".data
  else if token = "||".data then "||".data
  else []

/-- `ConstraintGenerator.getSymbolForToken`, with an explicit recursion
budget: translate one DSL token into the generated JavaScript fragment.
The recursion into a call's arguments (the source's `parseFunctionToken`,
inlined in the function-token branch) is on strictly shorter tokens
(`arg_length_lt`), so a budget exceeding the token length is never
exhausted; `getSymbolForToken` below instantiates it accordingly.  The
local names `funName`, `argString`, `args`, `argSymbols` of the source's
`parseFunctionToken` appear here inline. -/
def getSymbolForTokenF (reg : Registry) : Nat → List Char → List Char
  | 0, _ => []
  | fuel + 1, token =>
    if isModelVariable token then
      if token.length = 1 then "this.model".data
      else jsReplaceFirst token "$".data "this.model.".data
    else if isStateVariable token then
      if token.length = 1 then "this.state".data
      else jsReplaceFirst token "#".data "this.state.".data
    else if isStatementToken reg token then
      "this.functions['".data ++ token ++ "'](this.model, this.state)".data
    else if isFunctionToken reg token then
      "this.functions['".data ++ token.takeWhile (fun c => c ≠ '(') ++ "'](".data ++
        (List.intercalate ",".data
          ((getFunctionArgs (getSubstringWithinParentheses token)).map
            (getSymbolForTokenF reg fuel))) ++ ")".data
    else if isString token then token
    else if isNumberString token then token
    else operatorSwitch token

/-- `ConstraintGenerator.getSymbolForToken`. -/
def getSymbolForToken (reg : Registry) (token : List Char) : List Char :=
  getSymbolForTokenF reg (token.length + 1) token

/-- `ConstraintGenerator.parseFunctionToken`: translate a call token into
`this.functions['name'](arg-symbols)`, each argument translated
recursively. -/
def parseFunctionToken (reg : Registry) (token : List Char) : List Char :=
  "this.functions['".data ++ token.takeWhile (fun c => c ≠ '(') ++ "'](".data ++
    (List.intercalate ",".data
      ((getFunctionArgs (getSubstringWithinParentheses token)).map
        (getSymbolForToken reg))) ++ ")".data

/-- `ConstraintGenerator.getStringFromTokens`: concatenate the symbols of
all tokens. -/
def getStringFromTokens (reg : Registry) (tokens : List (List Char)) : List Char :=
  (tokens.map (getSymbolForToken reg)).flatten

/-- `ConstraintGenerator.generateConditionalString`: strip whitespace, run
the tokenizer loop, and assemble the generated expression string. -/
def generateConditionalString (reg : Registry) (data : List Char) :
    Except (List Char) (List Char) :=
  (gcsLoop reg data (removeWhitespace data) 0 0 [] 1001).map (getStringFromTokens reg)

/-! ## Constraint assembly -/

/-- The constraint source data (`ConstraintData` from `Constraint.ts`): only
its `assertion` string is read by the generator. -/
structure ConstraintData where
  assertion : List Char

/-- The activation-string computation of `generateFunction`: `'true'` for an
`ALWAYS` prefix, the compiled parenthesized body for a `WHEN` prefix, a
registry invocation for a bare statement token, and silently `'false'`
otherwise. -/
def makeActivationString (reg : Registry) (activationToken : List Char) :
    Except (List Char) (List Char) :=
  if "ALWAYS".data.isPrefixOf activationToken then .ok "true".data
  else if "WHEN".data.isPrefixOf activationToken then
    generateConditionalString reg (getSubstringWithinParentheses activationToken)
  else if isStatementToken reg activationToken then
    .ok ("this.functions['".data ++ activationToken ++ "'](this.model,this.state)".data)
  else .ok "false".data

/-- The activation/condition strings produced by
`ConstraintGenerator.generateFunction` before they are wrapped into the
generated function body. -/
def compileConstraint (reg : Registry) (resource : ConstraintData) :
    Except (List Char) (List Char × List Char) := do
  let tokens ← getSplitTokens resource.assertion
  let activationToken := jsTrim tokens.1
  let conditionToken := jsTrim tokens.2
  let activationString ← makeActivationString reg activationToken
  let conditionString ← generateConditionalString reg conditionToken
  return (activationString, conditionString)

/-- The fixed shape of the generated function body. -/
def ifWrap (activationString conditionString : List Char) : List Char :=
  "if(".data ++ activationString ++ ")\x7breturn(".data ++ conditionString ++
    ");\x7delse\x7breturn(true);\x7d".data

/-- `ConstraintGenerator.generateFunction`: the function-body string handed
to the (external) `FunctionGenerator`. -/
def generateFunction (reg : Registry) (resource : ConstraintData) :
    Except (List Char) (List Char) :=
  (compileConstraint reg resource).map (fun p => ifWrap p.1 p.2)

/-! ## Message tokenization and interpolation -/

/-- The `while` loop of `cutRemainderUntilCharMatches`, phrased on the
current end index: step left while the character does not match and the
index is positive. -/
def crLoop (s : List Char) (pred : Char → Bool) : Nat → Nat
  | 0 => 0
  | e + 1 =>
    if !pred ((jsCharAt s (e + 1)).getD '\x00') then crLoop s pred e else e + 1

/-- `ConstraintGenerator.cutRemainderUntilCharMatches`: cut off the end of
the string until a character matching the regex is reached. -/
def cutRemainderUntilCharMatches (srcString : List Char) (pred : Char → Bool) :
    List Char :=
  jsSubstring srcString 0 (crLoop srcString pred (srcString.length - 1) + 1)

/-- The `while` loop of `cutFrontUntilCharMatches`.  The loop advances while
the index stays below `length - 1`, so a `fuel` of `s.length` covers it. -/
def cfLoop (s : List Char) (pred : Char → Bool) : Nat → Nat → Nat
  | 0, startIndex => startIndex
  | fuel + 1, startIndex =>
    if ¬ pred ((jsCharAt s startIndex).getD '\x00') = true ∧
        startIndex < s.length - 1 then
      cfLoop s pred fuel (startIndex + 1)
    else startIndex

/-- `ConstraintGenerator.cutFrontUntilCharMatches`: cut off the front of
the string until a character matching the regex is reached. -/
def cutFrontUntilCharMatches (srcString : List Char) (pred : Char → Bool) :
    List Char :=
  srcString.drop (cfLoop srcString pred srcString.length 0)

/-- The scanning loop of `getMessageTokens`: word boundaries are whitespace
transitions outside function-call parentheses; the loop runs for
`i < length - 1` and additionally pushes the tail token at `i = length - 2`.
The `isCharWithinFunction` check can throw, and is only evaluated when the
preceding conjuncts hold (JavaScript `&&` short-circuits). -/
def gmtLoop (s : List Char) : Nat → Nat → Nat → List (List Char) →
    Except (List Char) (List (List Char))
  | 0, _, _, res => .ok res
  | fuel + 1, i, tokenStart, res =>
    if i < s.length - 1 then do
      let char := (jsCharAt s i).getD '\x00'
      let nextChar := (jsCharAt s (i + 1)).getD '\x00'
      let ts ←
        if isSpaceChar char && !isSpaceChar nextChar then
          (isCharWithinFunction s i).map (fun w => if w then tokenStart else i + 1)
        else .ok tokenStart
      let res' ←
        if !isSpaceChar char && isSpaceChar nextChar then
          (isCharWithinFunction s i).map
            (fun w => if w then res else res ++ [jsSubstring s ts (i + 1)])
        else .ok res
      let res'' := if i = s.length - 2 then res' ++ [jsSubstring s ts (i + 2)] else res'
      gmtLoop s fuel (i + 1) ts res''
    else .ok res

/-- The per-token trimming pass at the end of `getMessageTokens`. -/
def trimMessageToken (reg : Registry) (token : List Char) : List Char :=
  if isStatementToken reg token then
    cutRemainderUntilCharMatches token isWordChar
  else if isFunctionToken reg token then
    cutRemainderUntilCharMatches token (· = ')')
  else if token.contains '$' then
    cutFrontUntilCharMatches (cutRemainderUntilCharMatches token isWordChar) (· = '$')
  else if token.contains '#' then
    cutFrontUntilCharMatches (cutRemainderUntilCharMatches token isWordChar) (· = '#')
  else token

/-- `ConstraintGenerator.getMessageTokens`: scan the template into raw
tokens and trim each one. -/
def getMessageTokens (reg : Registry) (srcString : List Char) :
    Except (List Char) (List (List Char)) :=
  (gmtLoop srcString srcString.length 0 0 []).map (List.map (trimMessageToken reg))

/-- `ConstraintGenerator.getFilteredTokenArray`: the tokens starting with
the prefix, with the (first occurrence of the) prefix removed. -/
def getFilteredTokenArray (tokens : List (List Char)) (tokenPrefix : List Char) :
    List (List Char) :=
  (tokens.filter (fun t => tokenPrefix.isPrefixOf t)).map
    (fun t => jsReplaceFirst t tokenPrefix [])

/-- The caller-supplied function table of `getMessage`/`evaluateFunction`:
a name applied to an argument list.  A statement invocation passes
`[model, state]`. -/
abbrev FunTable := List Char → List Value → Value

/-- JavaScript `String(value)` for the values substituted into messages
(integer-valued numbers print without a fractional part; the repository's
message values are integers, so non-integral rationals use a plain
`num/den` rendering). -/
def valueToString : Value → List Char
  | .num q => (toString q).data
  | .str s => s
  | .boolV b => (if b then "true" else "false").data
  | .undefV => "undefined".data
  | .nan => "NaN".data
  | .obj _ => "[object Object]".data

/-- Digit run to a natural number. -/
def natOfDigits (s : List Char) : ℕ :=
  s.foldl (fun acc c => 10 * acc + (c.toNat - '0'.toNat)) 0

/-- Models the host `Number.parseFloat` on the numeric prefixes the DSL
produces: an optional sign, an integer part and an optional fraction;
`NaN` when no digits lead the string; a fractional prefix lies outside
the integer fragment modelled here. -/
def jsParseFloat (s : List Char) : Value :=
  let sgn : ℤ := if s.head? = some '-' then -1 else 1
  let rest := if s.head? = some '-' || s.head? = some '+' then s.drop 1 else s
  let intPart := rest.takeWhile isDigitChar
  let rest2 := rest.drop intPart.length
  let frac := if rest2.head? = some '.' then (rest2.drop 1).takeWhile isDigitChar else []
  if intPart = [] || frac ≠ [] then .nan
  else .num (sgn * (natOfDigits intPart : ℤ))

/-- `ConstraintGenerator.evaluateFunction`, with an explicit recursion
budget as in `getSymbolForTokenF`: resolve each argument of the call token
and invoke the named function from the table.  The argument-resolution
cases of the source's `for` loop appear inline: statements invoke the
table, nested calls recurse, references resolve via model/state lookup,
literals are parsed; an argument matching no case is skipped (`none`),
exactly as the source pushes nothing. -/
def evaluateFunctionF (reg : Registry) (fns : FunTable) (model state : Value) :
    Nat → List Char → Value
  | 0, _ => .undefV
  | fuel + 1, token =>
    fns (token.takeWhile (fun c => c ≠ '('))
      (((getFunctionArgs (getSubstringWithinParentheses token)).map
        (fun argsString =>
          if isStatementToken reg argsString then some (fns argsString [model, state])
          else if isFunctionToken reg argsString then
            some (evaluateFunctionF reg fns model state fuel argsString)
          else if isModelVariable argsString then
            some (getObjectValue model (jsReplaceFirst argsString "$".data []))
          else if isStateVariable argsString then
            some (getObjectValue state (jsReplaceFirst argsString "#".data []))
          else if isString argsString then
            some (.str (argsString.filter (fun c => c ≠ '\'')))
          else if isNumberString argsString then some (jsParseFloat argsString)
          else none)).reduceOption)

/-- `ConstraintGenerator.evaluateFunction`. -/
def evaluateFunction (reg : Registry) (fns : FunTable) (model state : Value)
    (token : List Char) : Value :=
  evaluateFunctionF reg fns model state (token.length + 1) token

/-- `ConstraintGenerator.getMessage`: substitute all model references, then
all state references, then (in template order) statement and function-call
references into the message template. -/
def getMessage (reg : Registry) (fns : FunTable) (model state : Value)
    (msgString : List Char) : Except (List Char) (List Char) := do
  let tokens ← getMessageTokens reg msgString
  let modelKeys := getFilteredTokenArray tokens "$".data
  let stateKeys := getFilteredTokenArray tokens "#".data
  let message1 := modelKeys.foldl
    (fun m k => jsReplaceFirst m ('$' :: k) (valueToString (getObjectValue model k)))
    msgString
  let message2 := stateKeys.foldl
    (fun m k => jsReplaceFirst m ('#' :: k) (valueToString (getObjectValue state k)))
    message1
  let message3 := tokens.foldl
    (fun m t =>
      if isStatementToken reg t then
        jsReplaceFirst m t (valueToString (fns t [model, state]))
      else if isFunctionToken reg t then
        jsReplaceFirst m t (valueToString (evaluateFunction reg fns model state t))
      else m)
    message2
  return message3

/-! ## Host-language evaluation, modelled from the spec

The final compilation step — turning the generated body string into a
callable — is performed by the external `FunctionGenerator` collaborator
and the host JavaScript evaluator, which are not part of the embedded
source file.  The spec specifies them only at their interface:
`evaluate(model, state) = if resolve(activation) then resolve(condition)
else true`, with standard operator precedence (`* / %` over `+ -` over
comparisons over equality over `&&` over `||`), left-to-right association,
and truthiness coercion of the result. -/

/-- Modelled from the spec: the host evaluator's boolean coercion of a
result value (`undefined`, `NaN`, `0`, the empty string and `false` are
falsy). -/
def truthy : Value → Bool
  | .num q => q ≠ 0
  | .str s => s ≠ []
  | .boolV b => b
  | .undefV => false
  | .nan => false
  | .obj _ => true

/-- Modelled from the spec: equality of DSL values.  Values of the same
kind compare structurally, `NaN` compares unequal to everything, and the
spec assigns no meaning to mixed-kind comparisons (they are unequal). -/
def jsEq : Value → Value → Bool
  | .num a, .num b => a = b
  | .str a, .str b => a = b
  | .boolV a, .boolV b => a = b
  | .undefV, .undefV => true
  | _, _ => false

/-- A token of the generated expression string. -/
inductive GTok where
  | num (q : ℤ)
  | strLit (s : List Char)
  | modelRef (path : List Char)
  | stateRef (path : List Char)
  | boolLit (b : Bool)
  | op (s : List Char)
  | lparen
  | rparen

/-- Modelled from the spec: a numeric literal of the generated string.
The evaluator models the integer fragment of the host's numbers (every
numeral in the verified examples is integral); a fractional literal is
outside the fragment and rejected. -/
def parseNumLit (s : List Char) : Option ℤ :=
  match jsSplit s '.' with
  | [i] => if i ≠ [] && i.all isDigitChar then some (natOfDigits i) else none
  | _ => none

/-- Modelled from the spec: tokenize a generated expression string
(number/string literals, `this.model`/`this.state` accesses, the
activation literals `true`/`false`, operators and brackets).  `fuel`
bounds the recursion; it is in excess of the string length everywhere the
function is used. -/
def tokenizeGen (fuel : Nat) (s : List Char) : Option (List GTok) :=
  match fuel with
  | 0 => none
  | fuel + 1 =>
    match s with
    | [] => some []
    | c :: rest =>
      if "this.model.".data.isPrefixOf s then
        let p := (s.drop 11).takeWhile (fun c => isWordChar c || c = '.')
        (tokenizeGen fuel (s.drop (11 + p.length))).map (.modelRef p :: ·)
      else if "this.model".data.isPrefixOf s then
        (tokenizeGen fuel (s.drop 10)).map (.modelRef [] :: ·)
      else if "this.state.".data.isPrefixOf s then
        let p := (s.drop 11).takeWhile (fun c => isWordChar c || c = '.')
        (tokenizeGen fuel (s.drop (11 + p.length))).map (.stateRef p :: ·)
      else if "this.state".data.isPrefixOf s then
        (tokenizeGen fuel (s.drop 10)).map (.stateRef [] :: ·)
      else if "true".data.isPrefixOf s then
        (tokenizeGen fuel (s.drop 4)).map (.boolLit true :: ·)
      else if "false".data.isPrefixOf s then
        (tokenizeGen fuel (s.drop 5)).map (.boolLit false :: ·)
      else if isDigitChar c then
        let d := s.takeWhile (fun c => isDigitChar c || c = '.')
        match parseNumLit d with
        | some q => (tokenizeGen fuel (s.drop d.length)).map (.num q :: ·)
        | none => none
      else if c = '\'' then
        let lit := rest.takeWhile (· ≠ '\'')
        if (rest.drop lit.length).head? = some '\'' then
          (tokenizeGen fuel (rest.drop (lit.length + 1))).map (.strLit lit :: ·)
        else none
      else if "==".data.isPrefixOf s then (tokenizeGen fuel (s.drop 2)).map (.op "==".data :: ·)
      else if "!=".data.isPrefixOf s then (tokenizeGen fuel (s.drop 2)).map (.op "!=".data :: ·)
      else if "<=".data.isPrefixOf s then (tokenizeGen fuel (s.drop 2)).map (.op "<=".data :: ·)
      else if ">=".data.isPrefixOf s then (tokenizeGen fuel (s.drop 2)).map (.op ">=".data :: ·)
      else if "&&".data.isPrefixOf s then (tokenizeGen fuel (s.drop 2)).map (.op "&&".data :: ·)
      else if "||".data.isPrefixOf s then (tokenizeGen fuel (s.drop 2)).map (.op "||".data :: ·)
      else if c = '(' then (tokenizeGen fuel rest).map (.lparen :: ·)
      else if c = ')' then (tokenizeGen fuel rest).map (.rparen :: ·)
      else if c = '<' || c = '>' || c = '+' || c = '-' || c = '*' || c = '/' ||
              c = '%' then
        (tokenizeGen fuel rest).map (.op [c] :: ·)
      else none

/-- Modelled from the spec: the precedence level of a binary operator,
loosest (1, `||`) to tightest (6, `* / %`). -/
def opLevel (o : List Char) : Nat :=
  if o = "||".data then 1
  else if o = "&&".data then 2
  else if o = "==".data || o = "!=".data then 3
  else if o = "<".data || o = "<=".data || o = ">".data || o = ">=".data then 4
  else if o = "+".data || o = "-".data then 5
  else if o = "*".data || o = "/".data || o = "%".data then 6
  else 0

/-- Modelled from the spec: apply one binary operator to two values.
Arithmetic is defined on numbers (and `+` concatenates strings); the
logical operators return an operand value, as the host language does;
operations the spec gives no meaning to yield `NaN`. -/
def applyOp (o : List Char) (a b : Value) : Value :=
  if o = "+".data then
    match a, b with
    | .num x, .num y => .num (x + y)
    | .str x, .str y => .str (x ++ y)
    | _, _ => .nan
  else if o = "-".data then
    match a, b with | .num x, .num y => .num (x - y) | _, _ => .nan
  else if o = "*".data then
    match a, b with | .num x, .num y => .num (x * y) | _, _ => .nan
  else if o = "/".data then
    -- only integral quotients lie in the modelled integer fragment
    match a, b with
    | .num x, .num y => if y ≠ 0 && y ∣ x then .num (x / y) else .nan
    | _, _ => .nan
  else if o = "%".data then
    match a, b with
    | .num x, .num y => if 0 ≤ x && 0 < y then .num (x % y) else .nan
    | _, _ => .nan
  else if o = "<".data then
    match a, b with | .num x, .num y => .boolV (x < y) | _, _ => .boolV false
  else if o = "<=".data then
    match a, b with | .num x, .num y => .boolV (x ≤ y) | _, _ => .boolV false
  else if o = ">".data then
    match a, b with | .num x, .num y => .boolV (y < x) | _, _ => .boolV false
  else if o = ">=".data then
    match a, b with | .num x, .num y => .boolV (y ≤ x) | _, _ => .boolV false
  else if o = "==".data then .boolV (jsEq a b)
  else if o = "!=".data then .boolV (!jsEq a b)
  else if o = "&&".data then if truthy a then b else a
  else if o = "||".data then if truthy a then a else b
  else .nan

/-- The state of the precedence-climbing evaluator: either parse an
expression at a precedence level, or fold the pending operators of a level
over an accumulated left operand. -/
inductive EvalTask where
  | level (lvl : Nat) (toks : List GTok)
  | ops (lvl : Nat) (acc : Value) (toks : List GTok)

/-- Modelled from the spec: precedence-climbing evaluation of a token
stream.  Level 7 parses a primary expression; a level `lvl ≤ 6` parses the
tighter level and then folds operators of level `lvl` left to right (the
`.ops` task).  `fuel` bounds the recursion and is passed in excess. -/
def evalRun (model state : Value) : Nat → EvalTask → Option (Value × List GTok)
  | 0, _ => none
  | fuel + 1, .level lvl toks =>
    if lvl ≥ 7 then
      match toks with
      | .num q :: rest => some (.num q, rest)
      | .strLit s :: rest => some (.str s, rest)
      | .boolLit b :: rest => some (.boolV b, rest)
      | .modelRef p :: rest => some (getObjectValue model p, rest)
      | .stateRef p :: rest => some (getObjectValue state p, rest)
      | .lparen :: rest =>
        match evalRun model state fuel (.level 1 rest) with
        | some (v, .rparen :: rest') => some (v, rest')
        | _ => none
      | _ => none
    else
      match evalRun model state fuel (.level (lvl + 1) toks) with
      | some (l, rest) => evalRun model state fuel (.ops lvl l rest)
      | none => none
  | fuel + 1, .ops lvl acc toks =>
    match toks with
    | .op o :: rest =>
      if opLevel o = lvl then
        match evalRun model state fuel (.level (lvl + 1) rest) with
        | some (r, rest') => evalRun model state fuel (.ops lvl (applyOp o acc r) rest')
        | none => none
      else some (acc, toks)
    | _ => some (acc, toks)

/-- Modelled from the spec: evaluate a generated expression string against
a model and a state, `none` when the string is not a well-formed
expression of the generated fragment. -/
def evalGenerated (model state : Value) (s : List Char) : Option Value := do
  let toks ← tokenizeGen (s.length + 1) s
  match evalRun model state (8 * (toks.length + 1)) (.level 1 toks) with
  | some (v, []) => some v
  | _ => none

/-- Modelled from the spec: the host evaluator as a boolean-valued
function on generated expression strings (truthiness of the evaluated
result). -/
def hostEval (model state : Value) (s : List Char) : Bool :=
  truthy ((evalGenerated model state s).getD .undefV)

/-- Modelled from the spec: the generated constraint body
`if(A){return(C);}else{return(true);}` runs as: if the activation string
evaluates to true, the result is the evaluation of the condition string,
otherwise `true`.  Parameterized over the host evaluator `ev`. -/
def evalCompiled (ev : List Char → Bool) (activationString conditionString : List Char) :
    Bool :=
  if ev activationString then ev conditionString else true

/-! ## Spec-side predicates and phase functions used by claim statements -/

/-- The model `{a:{b:5}}` of the spec's missing-path example. -/
def exampleModel : Value := .obj [("a".data, .obj [("b".data, .num 5)])]

/-- The spec's number-literal grammar `[+-]?(\d*\.)?\d+` as a full-string
match (unlike the source's unanchored `isNumberString` check). -/
def specNumberLiteral (s : List Char) : Bool :=
  let rest := if s.head? = some '+' || s.head? = some '-' then s.drop 1 else s
  let ip := rest.takeWhile isDigitChar
  match rest.drop ip.length with
  | [] => ip ≠ []
  | '.' :: fp => fp ≠ [] && fp.all isDigitChar
  | _ => false

/-- The spec's string-literal grammar: quote-delimited text without a
backtick. -/
def specStringLiteral (s : List Char) : Bool :=
  2 ≤ s.length && s.head? = some '\'' && s.getLast? = some '\'' && !s.contains '`'

/-- The fifteen operator/bracket spellings emitted by the symbol switch. -/
def operatorStrings : List (List Char) :=
  ["<".data, "<=".data, "==".data, "!=".data, ">=".data, ">".data, "+".data,
   "-".data, "*".data, "/".data, "%".data, "(".data, ")".data, "&&".data,
   "||".data]

/-- The closed set of symbols claimed for `getSymbolForToken`, with the
claim's literal classes read strictly: verbatim pass-through only for a
spec string literal or spec number literal. -/
def ClaimSymbolClass (token out : List Char) : Prop :=
  (out = token ∧ (specStringLiteral token = true ∨ specNumberLiteral token = true))
  ∨ (isModelVariable token = true ∧
      (out = "this.model".data ∨ out = jsReplaceFirst token "$".data "this.model.".data))
  ∨ (isStateVariable token = true ∧
      (out = "this.state".data ∨ out = jsReplaceFirst token "#".data "this.state.".data))
  ∨ (∃ name inner, out = "this.functions['".data ++ name ++ "'](".data ++ inner ++ [')'])
  ∨ out ∈ operatorStrings
  ∨ out = []

/-- The closed symbol set that actually holds for the source: as
`ClaimSymbolClass`, but verbatim pass-through is guarded by the source's
own checks — quote-delimited per `isString`, or containing a decimal digit
per the unanchored `isNumberString`. -/
def AmendedSymbolClass (token out : List Char) : Prop :=
  (out = token ∧ (isString token = true ∨ isNumberString token = true))
  ∨ (isModelVariable token = true ∧
      (out = "this.model".data ∨ out = jsReplaceFirst token "$".data "this.model.".data))
  ∨ (isStateVariable token = true ∧
      (out = "this.state".data ∨ out = jsReplaceFirst token "#".data "this.state.".data))
  ∨ (∃ name inner, out = "this.functions['".data ++ name ++ "'](".data ++ inner ++ [')'])
  ∨ out ∈ operatorStrings
  ∨ out = []

/-- The model-reference substitution phase of message rendering. -/
def substituteModelRefs (model : Value) (tokens : List (List Char))
    (msg : List Char) : List Char :=
  (getFilteredTokenArray tokens "$".data).foldl
    (fun m k => jsReplaceFirst m ('$' :: k) (valueToString (getObjectValue model k)))
    msg

/-- The state-reference substitution phase of message rendering. -/
def substituteStateRefs (state : Value) (tokens : List (List Char))
    (msg : List Char) : List Char :=
  (getFilteredTokenArray tokens "#".data).foldl
    (fun m k => jsReplaceFirst m ('#' :: k) (valueToString (getObjectValue state k)))
    msg

/-- The statement/function-call substitution phase of message rendering, in
template (token) order. -/
def substituteCalls (reg : Registry) (fns : FunTable) (model state : Value)
    (tokens : List (List Char)) (msg : List Char) : List Char :=
  tokens.foldl
    (fun m t =>
      if isStatementToken reg t then
        jsReplaceFirst m t (valueToString (fns t [model, state]))
      else if isFunctionToken reg t then
        jsReplaceFirst m t (valueToString (evaluateFunction reg fns model state t))
      else m)
    msg

/-! ## Supporting lemmas -/

theorem jsSubstring_length (s : List Char) (a b : Nat) :
    (jsSubstring s a b).length =
      max (min a s.length) (min b s.length) - min (min a s.length) (min b s.length) := by
  simp only [jsSubstring, List.length_drop, List.length_take]
  omega

theorem jsSubstring_length_le (s : List Char) (a b : Nat) :
    (jsSubstring s a b).length ≤ s.length := by
  rw [jsSubstring_length]; omega

theorem removeWhitespace_length_le (s : List Char) :
    (removeWhitespace s).length ≤ s.length :=
  List.length_filter_le _ s

theorem mem_gfaLoop (trimmed : List Char) (fuel : Nat) :
    ∀ (i startIndex : Nat) (numBrackets : Int) (res : List (List Char))
      (x : List Char), x ∈ gfaLoop trimmed fuel i startIndex numBrackets res →
      x ∈ res ∨ x.length ≤ trimmed.length := by
  induction fuel with
  | zero =>
    intro i s nb res x hx
    rw [gfaLoop] at hx
    exact Or.inl hx
  | succ fuel ih =>
    intro i s nb res x hx
    rw [gfaLoop] at hx
    rcases hchar : jsCharAt trimmed i with _ | c
    · rw [hchar] at hx
      exact Or.inl hx
    · rw [hchar] at hx
      simp only at hx
      by_cases h1 : c = '('
      · rw [if_pos h1] at hx
        exact ih _ _ _ _ _ hx
      · rw [if_neg h1] at hx
        by_cases h2 : c = ')'
        · rw [if_pos h2] at hx
          rcases ih _ _ _ _ _ hx with h' | h'
          · by_cases hsplit : ((decide ((nb - 1 : Int) = 0)) &&
              (decide (i = trimmed.length - 1))) = true
            · rw [if_pos hsplit] at h'
              rcases List.mem_append.mp h' with h'' | h''
              · exact Or.inl h''
              · exact Or.inr ((List.mem_singleton.mp h'') ▸ jsSubstring_length_le _ _ _)
            · rw [if_neg hsplit] at h'
              exact Or.inl h'
          · exact Or.inr h'
        · rw [if_neg h2] at hx
          by_cases h3 : ((decide (c = ',') || decide (i = trimmed.length - 1)) &&
            decide (nb = (0 : Int))) = true
          · rw [if_pos h3] at hx
            rcases ih _ _ _ _ _ hx with h' | h'
            · rcases List.mem_append.mp h' with h'' | h''
              · exact Or.inl h''
              · exact Or.inr ((List.mem_singleton.mp h'') ▸ jsSubstring_length_le _ _ _)
            · exact Or.inr h'
          · rw [if_neg h3] at hx
            exact ih _ _ _ _ _ hx

theorem mem_getFunctionArgs_length_le (argString x : List Char)
    (hx : x ∈ getFunctionArgs argString) : x.length ≤ argString.length := by
  rcases mem_gfaLoop _ _ _ _ _ _ _ hx with h | h
  · simp at h
  · exact h.trans (removeWhitespace_length_le argString)

theorem le_gswpLoop (s : List Char) (fuel : Nat) :
    ∀ (i opened dflt m : Nat), m ≤ i → m ≤ dflt →
      m ≤ gswpLoop s fuel i opened dflt := by
  induction fuel with
  | zero =>
    intro i opened dflt m _ hd
    rw [gswpLoop]
    exact hd
  | succ fuel ih =>
    intro i opened dflt m hi hd
    rw [gswpLoop]
    rcases hchar : jsCharAt s i with _ | c
    · exact hd
    · simp only
      by_cases h1 : c = '('
      · rw [if_pos h1]
        exact ih _ _ _ _ (by omega) hd
      · rw [if_neg h1]
        by_cases h2 : c = ')'
        · rw [if_pos h2]
          by_cases h3 : 0 < opened
          · rw [if_pos h3]
            exact ih _ _ _ _ (by omega) hd
          · rw [if_neg h3]
            exact hi
        · rw [if_neg h2]
          exact ih _ _ _ _ (by omega) hd

theorem jsCharAt_some_lt (s : List Char) (i : Nat) (c : Char)
    (h : jsCharAt s i = some c) : i < s.length := by
  by_contra hge
  rw [jsCharAt, List.getElem?_eq_none (by omega)] at h
  exact Option.noConfusion h

theorem jsCharAt_some_mem (s : List Char) (i : Nat) (c : Char)
    (h : jsCharAt s i = some c) : c ∈ s :=
  List.getElem?_mem h

theorem gswpLoop_eq_dflt_or_lt (s : List Char) (fuel : Nat) :
    ∀ (i opened dflt : Nat),
      gswpLoop s fuel i opened dflt = dflt ∨ gswpLoop s fuel i opened dflt < s.length := by
  induction fuel with
  | zero =>
    intro i opened dflt
    rw [gswpLoop]
    exact Or.inl rfl
  | succ fuel ih =>
    intro i opened dflt
    rw [gswpLoop]
    rcases hchar : jsCharAt s i with _ | c
    · exact Or.inl rfl
    · simp only
      by_cases h1 : c = '('
      · rw [if_pos h1]; exact ih _ _ _
      · rw [if_neg h1]
        by_cases h2 : c = ')'
        · rw [if_pos h2]
          by_cases h3 : 0 < opened
          · rw [if_pos h3]; exact ih _ _ _
          · rw [if_neg h3]
            exact Or.inr (jsCharAt_some_lt s i c hchar)
        · rw [if_neg h2]; exact ih _ _ _

theorem gswpLoop_no_brackets (s : List Char) (fuel : Nat)
    (h1 : ¬ s.contains '(') (h2 : ¬ s.contains ')') :
    ∀ (i opened dflt : Nat), gswpLoop s fuel i opened dflt = dflt := by
  induction fuel with
  | zero =>
    intro i opened dflt
    rw [gswpLoop]
  | succ fuel ih =>
    intro i opened dflt
    rw [gswpLoop]
    rcases hchar : jsCharAt s i with _ | c
    · rfl
    · simp only
      have hmem : c ∈ s := jsCharAt_some_mem s i c hchar
      have hc1 : ¬ c = '(' := fun h => h1 (List.elem_eq_true_of_mem (h ▸ hmem))
      have hc2 : ¬ c = ')' := fun h => h2 (List.elem_eq_true_of_mem (h ▸ hmem))
      rw [if_neg hc1, if_neg hc2]
      exact ih _ _ _

theorem findIdx?_lparen_eq_none (token : List Char) (h1 : ¬ token.contains '(') :
    token.findIdx? (· = '(') = none := by
  rw [List.findIdx?_eq_none_iff]
  intro x hx
  simp only [decide_eq_false_iff_not]
  intro hx'
  exact h1 (List.elem_eq_true_of_mem (hx' ▸ hx))

theorem gswp_length_lt (token : List Char)
    (hb : token.contains '(' ∨ token.contains ')') :
    (getSubstringWithinParentheses token).length < token.length := by
  have hlen : 1 ≤ token.length := by
    rcases hb with hb | hb <;>
      exact List.length_pos.mpr (List.ne_nil_of_mem (List.mem_of_elem_eq_true hb))
  unfold getSubstringWithinParentheses
  rw [jsSubstring_length]
  by_cases hpar : token.contains '('
  · have hidx : ∃ k, token.findIdx? (· = '(') = some k := by
      have hm : '(' ∈ token := List.mem_of_elem_eq_true hpar
      have : (token.findIdx? (· = '(')).isSome = true := by
        rw [List.findIdx?_isSome, List.any_eq_true]
        exact ⟨'(', hm, by simp⟩
      exact Option.isSome_iff_exists.mp this
    rcases hidx with ⟨k, hk⟩
    have hbs : (jsIndexOf token '(' + 1).toNat = k + 1 := by
      simp [jsIndexOf, hk]
    rw [hbs]
    have hge : k + 1 ≤ gswpLoop token token.length (k + 1) 0 (k + 1) :=
      le_gswpLoop token token.length (k + 1) 0 (k + 1) (k + 1) le_rfl le_rfl
    omega
  · have hbs : (jsIndexOf token '(' + 1).toNat = 0 := by
      simp [jsIndexOf, findIdx?_lparen_eq_none token hpar]
    rw [hbs]
    rcases gswpLoop_eq_dflt_or_lt token token.length 0 0 0 with h | h <;> omega

theorem getSubstringWithinParentheses_eq_nil (token : List Char)
    (h1 : ¬ token.contains '(') (h2 : ¬ token.contains ')') :
    getSubstringWithinParentheses token = [] := by
  have hbs : (jsIndexOf token '(' + 1).toNat = 0 := by
    simp [jsIndexOf, findIdx?_lparen_eq_none token h1]
  have hloop := gswpLoop_no_brackets token token.length h1 h2 0 0 0
  simp only [getSubstringWithinParentheses, hbs, hloop, jsSubstring]
  simp

/-- The key termination fact: every argument extracted from a token's
parentheses is strictly shorter than the token. -/
theorem arg_length_lt (token x : List Char)
    (hx : x ∈ getFunctionArgs (getSubstringWithinParentheses token)) :
    x.length < token.length := by
  by_cases hb : token.contains '(' ∨ token.contains ')'
  · exact lt_of_le_of_lt (mem_getFunctionArgs_length_le _ _ hx) (gswp_length_lt token hb)
  · push_neg at hb
    rw [getSubstringWithinParentheses_eq_nil token
      (by simpa using hb.1) (by simpa using hb.2)] at hx
    simp [getFunctionArgs, removeWhitespace, gfaLoop] at hx

/-- The recursion budget of `getSymbolForTokenF` is irrelevant once it
exceeds the token length: the recursion descends into strictly shorter
argument tokens. -/
theorem getSymbolForTokenF_fuel (reg : Registry) (n : Nat) :
    ∀ (token : List Char) (f1 f2 : Nat), token.length ≤ n →
      token.length < f1 → token.length < f2 →
      getSymbolForTokenF reg f1 token = getSymbolForTokenF reg f2 token := by
  induction n with
  | zero =>
    intro token f1 f2 hn h1 h2
    match f1, f2 with
    | a + 1, b + 1 =>
      rw [getSymbolForTokenF, getSymbolForTokenF]
      have htok : token = [] := List.length_eq_zero.mp (by omega)
      subst htok
      simp only [List.map_eq_map]
      have : ∀ x ∈ getFunctionArgs (getSubstringWithinParentheses []),
          getSymbolForTokenF reg a x = getSymbolForTokenF reg b x := by
        intro x hx
        exact absurd (arg_length_lt [] x hx) (by simp)
      rw [List.map_congr_left this]
  | succ n ih =>
    intro token f1 f2 hn h1 h2
    match f1, f2 with
    | a + 1, b + 1 =>
      rw [getSymbolForTokenF, getSymbolForTokenF]
      simp only [List.map_eq_map]
      have : ∀ x ∈ getFunctionArgs (getSubstringWithinParentheses token),
          getSymbolForTokenF reg a x = getSymbolForTokenF reg b x := by
        intro x hx
        have hlt := arg_length_lt token x hx
        exact ih x a b (by omega) (by omega) (by omega)
      rw [List.map_congr_left this]

/-- `jsSubstring` from the start of a string is `take`. -/
theorem jsSubstring_zero_eq_take (s : List Char) (i : Nat) (h : i ≤ s.length) :
    jsSubstring s 0 i = s.take i := by
  simp [jsSubstring, Nat.min_eq_left h]

/-- `jsSubstring` to the end of a string is `drop`. -/
theorem jsSubstring_to_end_eq_drop (s : List Char) (i : Nat) (h : i ≤ s.length) :
    jsSubstring s i s.length = s.drop i := by
  simp [jsSubstring, Nat.min_eq_left h, Nat.max_eq_right h]

/-! ## Claim theorems -/

/-- **C7.**  For every function name, registering it a second time fails
with the duplicate-registration error and produces no registry (so the
existing registry is untouched); registering a fresh name succeeds and
appends the name, so a successful registration extends the registry by
exactly the new name and the registry never shrinks (the old registry is a
prefix of the new one). -/
theorem C7_registerFunction_duplicate_error_and_append_only
    (reg : Registry) (name : List Char) :
    (name ∈ reg →
      registerFunction reg name =
        .error ("Function with name ".data ++ name ++ " is already registered".data))
    ∧ (name ∉ reg → registerFunction reg name = .ok (reg ++ [name]))
    ∧ (∀ reg', registerFunction reg name = .ok reg' →
        reg' = reg ++ [name] ∧ reg <+: reg') := by
  refine ⟨fun h => ?_, fun h => ?_, fun reg' h => ?_⟩
  · rw [registerFunction, if_pos (show reg.contains name = true from
      List.elem_eq_true_of_mem h)]
  · rw [registerFunction, if_neg (show ¬ reg.contains name = true from
      fun hc => h (List.mem_of_elem_eq_true hc))]
  · by_cases hmem : reg.contains name = true
    · rw [registerFunction, if_pos hmem] at h
      exact absurd h (by simp)
    · rw [registerFunction, if_neg hmem] at h
      have := Except.ok.inj h
      exact ⟨this.symm, this ▸ List.prefix_append reg [name]⟩

theorem C7_registerFunction_duplicate_error_and_append_only_witness :
    registerFunction ["f".data] "f".data =
      .error ("Function with name ".data ++ "f".data ++ " is already registered".data)
    ∧ registerFunction [] "f".data = .ok ["f".data] :=
  ⟨(C7_registerFunction_duplicate_error_and_append_only ["f".data] "f".data).1
      (by simp),
   (C7_registerFunction_duplicate_error_and_append_only [] "f".data).2.1
      (by simp)⟩

/-- **C5** (the code at the failing input).  With an empty registry, the
assertion `FOO:1==1` has an activation token matching none of the
recognized forms, yet `generateFunction` raises no error: it silently
produces the never-true activation string `'false'`, and the resulting
constraint evaluates to `true` (vacuously passes) for every model and
state.  The spec instead requires a compile-time configuration error
here. -/
theorem C5_unrecognized_activation_compiles_silently_to_false :
    compileConstraint [] ⟨"FOO:1==1".data⟩ = .ok ("false".data, "1==1".data)
    ∧ generateFunction [] ⟨"FOO:1==1".data⟩ =
        .ok (ifWrap "false".data "1==1".data)
    ∧ (∀ model state,
        evalCompiled (hostEval model state) "false".data "1==1".data = true) :=
  ⟨rfl, rfl, fun _ _ => rfl⟩

/-- **C1.**  For every successfully compiled constraint (with activation
string `a` and condition string `c`) and every host evaluator `ev` that
evaluates the literal `true` to true (evaluation itself is modelled from
the spec — the code-generation step hands the body to the external
`FunctionGenerator`): the constraint evaluates to the condition's value
when the activation resolves true and to `true` otherwise; an assertion
whose (trimmed) activation token starts with `ALWAYS` evaluates exactly as
its condition expression alone; and whenever the activation evaluates
false the constraint evaluates `true` regardless of the condition. -/
theorem C1_evaluate_is_activation_guarded_condition
    (reg : Registry) (r : ConstraintData) (a c : List Char)
    (ev : List Char → Bool)
    (h : compileConstraint reg r = .ok (a, c))
    (hev : ev "true".data = true) :
    evalCompiled ev a c = (if ev a then ev c else true)
    ∧ (∀ act cond, getSplitTokens r.assertion = .ok (act, cond) →
        "ALWAYS".data.isPrefixOf (jsTrim act) = true →
        evalCompiled ev a c = ev c)
    ∧ (ev a = false → evalCompiled ev a c = true) := by
  refine ⟨rfl, fun act cond hsplit hpre => ?_, fun h0 => ?_⟩
  · rw [compileConstraint, hsplit] at h
    simp only [Bind.bind, Except.bind] at h
    rw [makeActivationString, if_pos hpre] at h
    rcases hg : generateConditionalString reg (jsTrim cond) with e | c'
    · rw [hg] at h
      simp only [Except.bind] at h
      exact absurd h (by simp)
    · rw [hg] at h
      simp only [Except.bind, pure, Except.pure, Except.ok.injEq, Prod.mk.injEq] at h
      rw [evalCompiled, ← h.1, hev, if_pos rfl]
  · rw [evalCompiled, h0]
    simp

theorem C1_evaluate_is_activation_guarded_condition_witness :
    compileConstraint [] ⟨"ALWAYS:1==1".data⟩ = .ok ("true".data, "1==1".data)
    ∧ evalCompiled (fun s => decide (s = "true".data)) "true".data "1==1".data =
        (if (fun s => decide (s = "true".data)) "true".data
         then (fun s => decide (s = "true".data)) "1==1".data else true) := by
  have h : compileConstraint [] ⟨"ALWAYS:1==1".data⟩ =
      .ok ("true".data, "1==1".data) := rfl
  exact ⟨h, (C1_evaluate_is_activation_guarded_condition [] ⟨"ALWAYS:1==1".data⟩
    "true".data "1==1".data (fun s => decide (s = "true".data)) h (by decide)).1⟩

/-- **C2.**  Compiled evaluation never fails on missing paths: with model
`{a:{b:5}}` and any state, `ALWAYS:$a.b == 5` compiles and evaluates to
`true` while `ALWAYS:$a.c == 5` compiles and evaluates to `false` (not an
error); looking a missing key up on an object yields the defined value
`undefined` rather than throwing; and a dotted walk that dereferences a
missing intermediate yields the `'UNDEFINED_VALUE'` sentinel (the
`try`/`catch` of `getObjectValue`), so comparisons against it are
well-defined.  Host evaluation is modelled from the spec. -/
theorem C2_missing_paths_degrade_to_sentinel (state : Value) :
    compileConstraint [] ⟨"ALWAYS:$a.b == 5".data⟩ =
      .ok ("true".data, "this.model.a.b==5".data)
    ∧ compileConstraint [] ⟨"ALWAYS:$a.c == 5".data⟩ =
      .ok ("true".data, "this.model.a.c==5".data)
    ∧ evalCompiled (hostEval exampleModel state) "true".data
        "this.model.a.b==5".data = true
    ∧ evalCompiled (hostEval exampleModel state) "true".data
        "this.model.a.c==5".data = false
    ∧ (∀ (fields : List (List Char × Value)) (key : List Char),
        lookupField fields key = none → jsIndex (.obj fields) key = .ok .undefV)
    ∧ getObjectValue exampleModel "a.c.d".data = .str "UNDEFINED_VALUE".data := by
  refine ⟨rfl, rfl, rfl, rfl, fun fields key hk => ?_, rfl⟩
  rw [jsIndex, hk]
  rfl

theorem C2_missing_paths_degrade_to_sentinel_witness :
    lookupField [] "k".data = none ∧ jsIndex (.obj []) "k".data = .ok .undefV :=
  ⟨rfl, ((C2_missing_paths_degrade_to_sentinel .undefV).2.2.2.2.1 [] "k".data rfl)⟩

/-- **C4.**  Compiled expressions follow standard operator precedence with
brackets overriding it and left-to-right association at equal precedence
(host evaluation modelled from the spec's precedence table): for every
model and state, `ALWAYS:2 + 3 * 4 == 14` and `ALWAYS:(2 + 3) * 4 == 20`
compile and evaluate to `true`, as does the left-associativity example
`ALWAYS:10 - 3 - 2 == 5`. -/
theorem C4_operator_precedence_and_brackets (model state : Value) :
    compileConstraint [] ⟨"ALWAYS:2 + 3 * 4 == 14".data⟩ =
      .ok ("true".data, "2+3*4==14".data)
    ∧ compileConstraint [] ⟨"ALWAYS:(2 + 3) * 4 == 20".data⟩ =
      .ok ("true".data, "(2+3)*4==20".data)
    ∧ compileConstraint [] ⟨"ALWAYS:10 - 3 - 2 == 5".data⟩ =
      .ok ("true".data, "10-3-2==5".data)
    ∧ evalCompiled (hostEval model state) "true".data "2+3*4==14".data = true
    ∧ evalCompiled (hostEval model state) "true".data "(2+3)*4==20".data = true
    ∧ evalCompiled (hostEval model state) "true".data "10-3-2==5".data = true := by
  refine ⟨rfl, rfl, rfl, ?_, ?_, ?_⟩ <;> with_unfolding_all rfl

/-- **C6.**  Operator tokenization: for a leading `<`, `>`, `!` or `=` the
operator is two characters exactly when the next character is `=`, else
one; a leading `&` always consumes two characters, so a lone `&` is never
cut as a one-character operator — and the lone-`&` token maps to the empty
symbol while `&&` maps to itself; a leading character that starts no known
token class (no data-access prefix, quote, digit, registered function, or
operator/bracket start) makes the tokenizer loop throw the fatal
`Unable to parse statement` SyntaxError. -/
theorem C6_operator_length_detection_and_unknown_char_error :
    (∀ (trimmed : List Char) (startIndex endIndex : Nat) (startChar : Char),
      (startChar = '<' ∨ startChar = '>' ∨ startChar = '!' ∨ startChar = '=') →
      getOperatorEndIndex trimmed startChar startIndex endIndex =
        (if jsCharAt trimmed (startIndex + 1) = some '=' then startIndex + 2
         else startIndex + 1))
    ∧ (∀ (trimmed : List Char) (startIndex endIndex : Nat),
        getOperatorEndIndex trimmed '&' startIndex endIndex = startIndex + 2)
    ∧ getSymbolForToken [] "&".data = []
    ∧ getSymbolForToken [] "&&".data = "&&".data
    ∧ (∀ (reg : Registry) (data trimmed : List Char) (startIndex endIndex : Nat)
        (tokens : List (List Char)) (remaining : Nat) (c : Char),
        jsCharAt trimmed startIndex = some c →
        c ≠ '$' → c ≠ '#' → c ≠ '\'' → isDigitChar c = false →
        isFunctionToken reg (trimmed.drop startIndex) = false →
        c ∉ OPERATOR_START →
        gcsLoop reg data trimmed startIndex endIndex tokens remaining =
          .error ("Unable to parse statement: ".data ++ data ++ ", char: ".data ++
            [c] ++ ", index: ".data ++ (toString startIndex).data)) := by
  refine ⟨fun t s e c hc => ?_, fun t s e => rfl, rfl, rfl,
    fun reg data t s e toks r c hchar h1 h2 h3 h4 h5 h6 => ?_⟩
  · rcases hc with rfl | rfl | rfl | rfl <;> simp [getOperatorEndIndex]
  · have hclass : classifyEnd reg data t s e =
        .error ("Unable to parse statement: ".data ++ data ++ ", char: ".data ++
          [c] ++ ", index: ".data ++ (toString s).data) := by
      rw [classifyEnd, hchar]
      simp [h1, h2, h3, h4, h5]
      exact h6
    rw [gcsLoop, hclass]

theorem C6_operator_length_detection_and_unknown_char_error_witness :
    getOperatorEndIndex "<= 1".data '<' 0 0 =
      (if jsCharAt "<= 1".data 1 = some '=' then 2 else 1)
    ∧ gcsLoop [] "a".data "a".data 0 0 [] 1001 =
      .error ("Unable to parse statement: ".data ++ "a".data ++ ", char: ".data ++
        ['a'] ++ ", index: ".data ++ (toString 0).data) :=
  ⟨C6_operator_length_detection_and_unknown_char_error.1 "<= 1".data 0 0 '<'
      (Or.inl rfl),
   C6_operator_length_detection_and_unknown_char_error.2.2.2.2 [] "a".data
      "a".data 0 0 [] 1001 'a' rfl (by decide) (by decide) (by decide) (by decide)
      rfl (by decide)⟩

/-- On the input `$` (a data-access prefix ending the string), the scan
helper returns the stale end index 0, so the tokenizer loop never advances:
every budget ends in the iteration-cap error. -/
theorem gcsLoop_dollar_stuck :
    ∀ (r : Nat) (toks : List (List Char)),
      gcsLoop [] "$".data "$".data 0 0 toks r = .error (maxIterationsMsg "$".data) := by
  intro r
  induction r with
  | zero =>
    intro toks
    rw [gcsLoop]
    rfl
  | succ r ih =>
    intro toks
    rw [gcsLoop]
    have hc : classifyEnd [] "$".data "$".data 0 0 = .ok 0 := rfl
    rw [hc]
    simp only [ge_iff_le, if_neg (by decide : ¬ ("$".data.length ≤ 0))]
    exact ih _


/-- **C8.**  The tokenizer loop is bounded: with the iteration budget
exhausted (the source's `iterations` counter past 1000), a pass whose
classification succeeds aborts with the bounded
`Maximum number of parsing iterations reached` SyntaxError rather than
continuing; with budget remaining, a pass that consumes the rest of the
string returns the token list; and the classic non-advancing input `$`
(whose data-access scan returns the stale end index, so the loop never
progresses) terminates with exactly that SyntaxError instead of hanging.
Together with `gcsLoop` being a total function, tokenization terminates on
every input. -/
theorem C8_tokenizer_iteration_cap :
    (∀ (reg : Registry) (data trimmed : List Char) (startIndex endIndex : Nat)
        (tokens : List (List Char)) (endIndex' : Nat),
      classifyEnd reg data trimmed startIndex endIndex = .ok endIndex' →
      gcsLoop reg data trimmed startIndex endIndex tokens 0 =
        .error (maxIterationsMsg data))
    ∧ (∀ (reg : Registry) (data trimmed : List Char) (startIndex endIndex : Nat)
        (tokens : List (List Char)) (r endIndex' : Nat),
        classifyEnd reg data trimmed startIndex endIndex = .ok endIndex' →
        endIndex' ≥ trimmed.length →
        gcsLoop reg data trimmed startIndex endIndex tokens (r + 1) =
          .ok (tokens ++ [jsSubstring trimmed startIndex endIndex']))
    ∧ generateConditionalString [] "$".data =
        .error (maxIterationsMsg "$".data) := by
  refine ⟨fun reg data t s e toks e' hclass => ?_,
    fun reg data t s e toks r e' hclass hge => ?_, ?_⟩
  · rw [gcsLoop, hclass]
  · rw [gcsLoop, hclass]
    simp only [ge_iff_le, hge, if_pos]
  · rw [generateConditionalString]
    have : removeWhitespace "$".data = "$".data := rfl
    rw [this, gcsLoop_dollar_stuck 1001 []]
    rfl

theorem C8_tokenizer_iteration_cap_witness :
    classifyEnd [] "1".data "1".data 0 0 = .ok 1
    ∧ gcsLoop [] "1".data "1".data 0 0 [] 0 =
        .error (maxIterationsMsg "1".data)
    ∧ gcsLoop [] "1".data "1".data 0 0 [] 1001 =
        .ok ([] ++ [jsSubstring "1".data 0 1]) := by
  have hclass : classifyEnd [] "1".data "1".data 0 0 = .ok 1 := rfl
  exact ⟨hclass,
    C8_tokenizer_iteration_cap.1 [] "1".data "1".data 0 0 [] 1 hclass,
    C8_tokenizer_iteration_cap.2.1 [] "1".data "1".data 0 0 [] 1000 1 hclass
      (by decide)⟩

/-- Every output of the operator `switch` is one of the fifteen operator
spellings or the empty string. -/
theorem operatorSwitch_mem_or_empty (token : List Char) :
    operatorSwitch token ∈ operatorStrings ∨ operatorSwitch token = [] := by
  unfold operatorSwitch
  by_cases h0 : token = "<".data
  · rw [if_pos h0]
    exact Or.inl (by decide)
  · rw [if_neg h0]
    by_cases h1 : token = "<=".data
    · rw [if_pos h1]
      exact Or.inl (by decide)
    · rw [if_neg h1]
      by_cases h2 : token = "==".data
      · rw [if_pos h2]
        exact Or.inl (by decide)
      · rw [if_neg h2]
        by_cases h3 : token = "!=".data
        · rw [if_pos h3]
          exact Or.inl (by decide)
        · rw [if_neg h3]
          by_cases h4 : token = ">=".data
          · rw [if_pos h4]
            exact Or.inl (by decide)
          · rw [if_neg h4]
            by_cases h5 : token = ">".data
            · rw [if_pos h5]
              exact Or.inl (by decide)
            · rw [if_neg h5]
              by_cases h6 : token = "+".data
              · rw [if_pos h6]
                exact Or.inl (by decide)
              · rw [if_neg h6]
                by_cases h7 : token = "-".data
                · rw [if_pos h7]
                  exact Or.inl (by decide)
                · rw [if_neg h7]
                  by_cases h8 : token = "*".data
                  · rw [if_pos h8]
                    exact Or.inl (by decide)
                  · rw [if_neg h8]
                    by_cases h9 : token = "/".data
                    · rw [if_pos h9]
                      exact Or.inl (by decide)
                    · rw [if_neg h9]
                      by_cases h10 : token = "%".data
                      · rw [if_pos h10]
                        exact Or.inl (by decide)
                      · rw [if_neg h10]
                        by_cases h11 : token = "(".data
                        · rw [if_pos h11]
                          exact Or.inl (by decide)
                        · rw [if_neg h11]
                          by_cases h12 : token = ")".data
                          · rw [if_pos h12]
                            exact Or.inl (by decide)
                          · rw [if_neg h12]
                            by_cases h13 : token = "&&".data
                            · rw [if_pos h13]
                              exact Or.inl (by decide)
                            · rw [if_neg h13]
                              by_cases h14 : token = "||".data
                              · rw [if_pos h14]
                                exact Or.inl (by decide)
                              · rw [if_neg h14]
                                exact Or.inr rfl

/-- The closed-set property of the symbol translation, for every recursion
budget. -/
theorem amendedClass_getSymbolForTokenF (reg : Registry) :
    ∀ (fuel : Nat) (token : List Char),
      AmendedSymbolClass token (getSymbolForTokenF reg fuel token) := by
  intro fuel token
  match fuel with
  | 0 =>
    rw [getSymbolForTokenF]
    exact Or.inr (Or.inr (Or.inr (Or.inr (Or.inr rfl))))
  | fuel + 1 =>
    rw [getSymbolForTokenF]
    by_cases h1 : isModelVariable token = true
    · rw [if_pos h1]
      by_cases hl : token.length = 1
      · rw [if_pos hl]
        exact Or.inr (Or.inl ⟨h1, Or.inl rfl⟩)
      · rw [if_neg hl]
        exact Or.inr (Or.inl ⟨h1, Or.inr rfl⟩)
    · rw [if_neg h1]
      by_cases h2 : isStateVariable token = true
      · rw [if_pos h2]
        by_cases hl : token.length = 1
        · rw [if_pos hl]
          exact Or.inr (Or.inr (Or.inl ⟨h2, Or.inl rfl⟩))
        · rw [if_neg hl]
          exact Or.inr (Or.inr (Or.inl ⟨h2, Or.inr rfl⟩))
      · rw [if_neg h2]
        by_cases h3 : isStatementToken reg token = true
        · rw [if_pos h3]
          refine Or.inr (Or.inr (Or.inr (Or.inl
            ⟨token, "this.model, this.state".data, ?_⟩)))
          simp only [List.append_assoc]
          with_unfolding_all rfl
        · rw [if_neg h3]
          by_cases h4 : isFunctionToken reg token = true
          · rw [if_pos h4]
            refine Or.inr (Or.inr (Or.inr (Or.inl
              ⟨token.takeWhile (fun c => c ≠ '('),
               List.intercalate ",".data
                 ((getFunctionArgs (getSubstringWithinParentheses token)).map
                   (getSymbolForTokenF reg fuel)), ?_⟩)))
            simp only [List.append_assoc]
          · rw [if_neg h4]
            by_cases h5 : isString token = true
            · rw [if_pos h5]
              exact Or.inl ⟨rfl, Or.inl h5⟩
            · rw [if_neg h5]
              by_cases h6 : isNumberString token = true
              · rw [if_pos h6]
                exact Or.inl ⟨rfl, Or.inr h6⟩
              · rw [if_neg h6]
                rcases operatorSwitch_mem_or_empty token with h | h
                · exact Or.inr (Or.inr (Or.inr (Or.inr (Or.inl h))))
                · exact Or.inr (Or.inr (Or.inr (Or.inr (Or.inr h))))

/-- **C10 (counterexample).**  The token `@1` — neither a string literal
nor a number literal of the spec's grammar — is passed through verbatim by
`getSymbolForToken` (the source's number check is an unanchored regex that
accepts any token containing a digit), so the claimed closed set, read
with literal number/string classes, is violated. -/
theorem C10_counterexample_verbatim_nonliteral :
    getSymbolForToken [] "@1".data = "@1".data
    ∧ ¬ ClaimSymbolClass "@1".data "@1".data := by
  refine ⟨rfl, fun h => ?_⟩
  rcases h with ⟨_, h | h⟩ | ⟨h, _⟩ | ⟨h, _⟩ | ⟨name, inner, h⟩ | h | h
  · exact absurd h (by decide)
  · exact absurd h (by decide)
  · exact absurd h (by decide)
  · exact absurd h (by decide)
  · have hh : ("@1".data : List Char).head? = some 't' := by
      rw [h]
      with_unfolding_all rfl
    simp at hh
  · exact absurd h (by decide)
  · exact absurd h (by decide)

/-- **C10 (amended).**  For every registry and token, the symbol emitted by
`getSymbolForToken` lies in the closed set: the token itself only when the
source's literal checks accept it (quote-delimited without a backtick, or
containing a decimal digit — the unanchored number check), a model/state
access derived from a `$`/`#` token (the bare prefix giving the whole
object), a registry-invocation string for statement/function tokens, one
of the fifteen operator/bracket spellings, or the empty string — any token
matching none of these classes yields the empty string, never an error. -/
theorem C10_symbol_closed_set_amended (reg : Registry) (token : List Char) :
    AmendedSymbolClass token (getSymbolForToken reg token) :=
  amendedClass_getSymbolForTokenF reg (token.length + 1) token

/-- When no index from `k` on holds an unquoted colon, the separator scan
returns `-1`. -/
theorem splitIndexFromAux_none (s : List Char) :
    ∀ (fuel k : Nat),
      (∀ j, k ≤ j → jsCharAt s j = some ':' → isCharWithinString s j = true) →
      splitIndexFromAux s fuel k = -1 := by
  intro fuel
  induction fuel with
  | zero =>
    intro k _
    rw [splitIndexFromAux]
  | succ fuel ih =>
    intro k h
    rw [splitIndexFromAux]
    rcases hc : jsCharAt s k with _ | c
    · rfl
    · have hcond : ¬ ((c = ':' && !isCharWithinString s k) = true) := by
        simp only [Bool.and_eq_true, decide_eq_true_eq, Bool.not_eq_true']
        rintro ⟨rfl, hw⟩
        rw [h k le_rfl hc] at hw
        exact Bool.noConfusion hw
      simp only [hcond, if_false]
      exact ih (k + 1) (fun j hj => h j (by omega))

/-- When `i` holds the first unquoted colon at or after `k`, and the fuel
reaches it, the separator scan returns `i`. -/
theorem splitIndexFromAux_found (s : List Char) :
    ∀ (fuel k i : Nat), k ≤ i → i < k + fuel →
      jsCharAt s i = some ':' → isCharWithinString s i = false →
      (∀ j, k ≤ j → j < i → jsCharAt s j = some ':' → isCharWithinString s j = true) →
      splitIndexFromAux s fuel k = (i : Int) := by
  intro fuel
  induction fuel with
  | zero =>
    intro k i hk hfuel _ _ _
    omega
  | succ fuel ih =>
    intro k i hk hfuel hci hwi hmin
    rw [splitIndexFromAux]
    rcases Nat.eq_or_lt_of_le hk with rfl | hlt
    · rw [hci]
      simp [hwi]
    · rcases hc : jsCharAt s k with _ | c
      · have hilen := jsCharAt_some_lt s i ':' hci
        have hlen : s.length ≤ k := by
          by_contra hlt
          push_neg at hlt
          rw [jsCharAt, List.getElem?_eq_getElem hlt] at hc
          exact Option.noConfusion hc
        exact absurd hlen (by omega)
      · have hcond : ¬ ((c = ':' && !isCharWithinString s k) = true) := by
          simp only [Bool.and_eq_true, decide_eq_true_eq, Bool.not_eq_true']
          rintro ⟨rfl, hw⟩
          rw [hmin k le_rfl hlt hc] at hw
          exact Bool.noConfusion hw
        simp only [hcond, if_false]
        exact ih (k + 1) i hlt (by omega) hci hwi
          (fun j hj => hmin j (by omega))

/-- For a string whose quote count is even (every literal closed) and an
index not holding a quote, the source's count-after parity check agrees
with the natural "odd number of quotes before the index" reading of being
inside a string literal. -/
theorem isCharWithinString_iff_odd_before (s : List Char) (i : Nat)
    (hi : i < s.length)
    (heven : ((s.filter (· = '\'')).length) % 2 = 0)
    (hq : jsCharAt s i ≠ some '\'') :
    (isCharWithinString s i = true ↔
      ((s.take i).filter (· = '\'')).length % 2 = 1) := by
  have hsome : jsCharAt s i = some s[i] := by
    rw [jsCharAt, List.getElem?_eq_getElem hi]
  have hget : s[i] ≠ '\'' := fun h => hq (by rw [hsome, h])
  have hsplit : s = s.take i ++ s[i] :: s.drop (i + 1) := by
    conv_lhs => rw [← List.take_append_drop i s, List.drop_eq_getElem_cons hi]
  have hcount : (s.filter (· = '\'')).length =
      ((s.take i).filter (· = '\'')).length +
      ((s.drop (i + 1)).filter (· = '\'')).length := by
    conv_lhs => rw [hsplit]
    rw [List.filter_append, List.filter_cons]
    simp [hget]
  rw [isCharWithinString]
  by_cases h0 : i = 0
  · subst h0
    simp only [List.take_zero, List.filter_nil, List.length_nil]
    simp
  · by_cases hlast : i = s.length - 1
    · have hcond : (decide (i = 0) || decide (i = s.length - 1) ||
          decide (jsCharAt s i = some '\'')) = true := by
        simp [hlast]
      rw [if_pos hcond]
      have hdrop : s.drop (i + 1) = [] := List.drop_eq_nil_of_le (by omega)
      rw [hdrop, List.filter_nil, List.length_nil] at hcount
      constructor
      · intro h
        exact absurd h (by simp)
      · intro h
        exfalso
        omega
    · have hcond : (decide (i = 0) || decide (i = s.length - 1) ||
          decide (jsCharAt s i = some '\'')) = false := by
        simp [h0, hlast, hq]
      rw [if_neg (by rw [hcond]; simp)]
      simp only [decide_eq_true_eq]
      omega

/-- **C3.**  The assertion splitter cuts at the first `:` whose
`isCharWithinString` check says it lies outside a string literal —
returning the text before it and after it — and throws the
`Invalid syntax for token` SyntaxError when every colon is inside a
literal (or absent); moreover, for strings with balanced quotes the
within-string check coincides with the natural odd-quotes-before reading,
so a `:` inside a quoted literal such as `'a:b'` is never the split
point. -/
theorem C3_split_at_first_unquoted_colon (s : List Char) :
    (∀ i, jsCharAt s i = some ':' → isCharWithinString s i = false →
      (∀ j, j < i → jsCharAt s j = some ':' → isCharWithinString s j = true) →
      getSplitTokens s = .ok (s.take i, s.drop (i + 1)))
    ∧ ((∀ j, jsCharAt s j = some ':' → isCharWithinString s j = true) →
        getSplitTokens s = .error ("Invalid syntax for token: ".data ++ s))
    ∧ (∀ i, i < s.length → ((s.filter (· = '\'')).length) % 2 = 0 →
        jsCharAt s i ≠ some '\'' →
        (isCharWithinString s i = true ↔
          ((s.take i).filter (· = '\'')).length % 2 = 1)) := by
  refine ⟨fun i hci hwi hmin => ?_, fun h => ?_, fun i hi he hq =>
    isCharWithinString_iff_odd_before s i hi he hq⟩
  · have hilen := jsCharAt_some_lt s i ':' hci
    have hfound : splitIndexFrom s 0 = (i : Int) :=
      splitIndexFromAux_found s s.length 0 i (Nat.zero_le i) (by omega) hci hwi
        (fun j _ hj hcj => hmin j hj hcj)
    rw [getSplitTokens, hfound]
    show Except.ok (jsSubstring s 0 i, jsSubstring s (i + 1) s.length) =
      Except.ok (s.take i, s.drop (i + 1))
    rw [jsSubstring_zero_eq_take s i (by omega),
      jsSubstring_to_end_eq_drop s (i + 1) (by omega)]
  · have hnone : splitIndexFrom s 0 = -1 :=
      splitIndexFromAux_none s s.length 0 (fun j _ => h j)
    rw [getSplitTokens, hnone]
    rfl

theorem C3_split_at_first_unquoted_colon_witness :
    getSplitTokens "ALWAYS:'a:b' == 'a:b'".data =
      .ok ("ALWAYS:'a:b' == 'a:b'".data.take 6,
           "ALWAYS:'a:b' == 'a:b'".data.drop 7) :=
  (C3_split_at_first_unquoted_colon "ALWAYS:'a:b' == 'a:b'".data).1 6
    (by decide) (by decide)
    (by decide)

/-- **C9.**  Message rendering substitutes in a fixed order: whenever the
template tokenizes, the rendered message is exactly the template passed
through the model-reference substitution phase first, then the
state-reference phase, then the statement/function-call phase in template
order; and the spec's example — template `"value is $a.b and #c"`, model
`{a:{b:5}}`, state `{c:7}` — renders `"value is 5 and 7"`. -/
theorem C9_message_rendering_order_and_example :
    (∀ (reg : Registry) (fns : FunTable) (model state : Value)
        (msgString : List Char) (tokens : List (List Char)),
      getMessageTokens reg msgString = .ok tokens →
      getMessage reg fns model state msgString =
        .ok (substituteCalls reg fns model state tokens
          (substituteStateRefs state tokens
            (substituteModelRefs model tokens msgString))))
    ∧ getMessage [] (fun _ _ => .undefV) exampleModel (.obj [("c".data, .num 7)])
        "value is $a.b and #c".data = .ok "value is 5 and 7".data := by
  have hgen : ∀ (reg : Registry) (fns : FunTable) (model state : Value)
      (msgString : List Char) (tokens : List (List Char)),
      getMessageTokens reg msgString = .ok tokens →
      getMessage reg fns model state msgString =
        .ok (substituteCalls reg fns model state tokens
          (substituteStateRefs state tokens
            (substituteModelRefs model tokens msgString))) := by
    intro reg fns model state msgString tokens htok
    rw [getMessage, htok]
    rfl
  refine ⟨hgen, ?_⟩
  have htok : getMessageTokens [] "value is $a.b and #c".data =
      .ok ["value".data, "is".data, "$a.b".data, "and".data, "#c".data] := rfl
  rw [hgen [] (fun _ _ => .undefV) exampleModel (.obj [("c".data, .num 7)])
    "value is $a.b and #c".data
    ["value".data, "is".data, "$a.b".data, "and".data, "#c".data] htok]
  have h1 : substituteModelRefs exampleModel
      ["value".data, "is".data, "$a.b".data, "and".data, "#c".data]
      "value is $a.b and #c".data = "value is 5 and #c".data := rfl
  have h2 : substituteStateRefs (.obj [("c".data, .num 7)])
      ["value".data, "is".data, "$a.b".data, "and".data, "#c".data]
      "value is 5 and #c".data = "value is 5 and 7".data := rfl
  have h3 : substituteCalls [] (fun _ _ => .undefV) exampleModel
      (.obj [("c".data, .num 7)])
      ["value".data, "is".data, "$a.b".data, "and".data, "#c".data]
      "value is 5 and 7".data = "value is 5 and 7".data := rfl
  rw [h1, h2, h3]

theorem C9_message_rendering_order_and_example_witness :
    getMessageTokens [] "$a.b".data = .ok ["$a.b".data]
    ∧ getMessage [] (fun _ _ => .undefV) exampleModel .undefV "$a.b".data =
        .ok (substituteCalls [] (fun _ _ => .undefV) exampleModel .undefV
          ["$a.b".data]
          (substituteStateRefs .undefV ["$a.b".data]
            (substituteModelRefs exampleModel ["$a.b".data] "$a.b".data))) := by
  have htok : getMessageTokens [] "$a.b".data = .ok ["$a.b".data] := rfl
  exact ⟨htok, C9_message_rendering_order_and_example.1 [] (fun _ _ => .undefV)
    exampleModel .undefV "$a.b".data ["$a.b".data] htok⟩

end Consys
